import Mathlib

/-!
Shallow embedding of `src/app/main.py` ("Retina Disease Classification API").

The repository serves a pretrained image classifier over HTTP.  The core logic
embedded here:

* `get_id2label` — label-map normalization with a fixed 4-class fallback;
* `format_predictions` — top-k clamping, descending sort, label resolution;
* `predict_route` — the `/predict` request gate (content-type check, decode
  check) and the inference call under `torch.no_grad()`;
* `load_model_and_processor` / `startup` — artifact-directory check and
  process startup.

Python dicts are modelled as insertion-ordered association lists; `float`
scores are modelled as rationals (only comparisons matter to the claims);
external library operations (image decode, preprocessing, the model forward
pass, softmax) are parameters of the embedded routes.
-/

namespace Retina

/-- A key of the `id2label` metadata mapping: Python `int` or `str`. -/
inductive PyKey where
  | int (n : Int)
  | str (s : String)
deriving DecidableEq, Repr

/-- Parses the Python decimal digit run with single underscores allowed between
digits (`digit (("_")? digit)*`), continuing from accumulator `acc`.  The
caller has already consumed the first digit. -/
def pyDigitsAux (acc : Nat) : List Char → Option Nat
  | [] => some acc
  | '_' :: c :: rest =>
    if c.isDigit then pyDigitsAux (acc * 10 + (c.toNat - 48)) rest else none
  | c :: rest =>
    if c.isDigit then pyDigitsAux (acc * 10 + (c.toNat - 48)) rest else none

/-- Parses a nonempty unsigned decimal literal as Python `int` accepts it:
digits with single underscores strictly between digits. -/
def pyDigits : List Char → Option Nat
  | c :: rest => if c.isDigit then pyDigitsAux (c.toNat - 48) rest else none
  | [] => none

/-- The whitespace characters Python `int()` strips (ASCII fragment). -/
def pyWs (c : Char) : Bool :=
  c == ' ' || c == '\t' || c == '\n' || c == '\r' || c == '\x0b' || c == '\x0c'

/-- Strips leading and trailing whitespace from a character list. -/
def pyStrip (l : List Char) : List Char :=
  ((l.dropWhile pyWs).reverse.dropWhile pyWs).reverse

/-- Python `int(s)` on a string (ASCII fragment): surrounding whitespace is
stripped, an optional `+`/`-` sign precedes the digits, and underscores may
separate digit groups; anything else raises (`none`). -/
def pyIntStr (s : String) : Option Int :=
  match pyStrip s.toList with
  | '-' :: rest => (pyDigits rest).map (fun n => -(n : Int))
  | '+' :: rest => (pyDigits rest).map (fun n => (n : Int))
  | rest => (pyDigits rest).map (fun n => (n : Int))

/-- Python `int(k)` on a metadata key, as used in `normalized[int(k)] = str(v)`:
an `int` key is returned as-is, a `str` key is parsed with the string
grammar of `int()`, failing (`none`) exactly when `int(k)` raises. -/
def pyInt : PyKey → Option Int
  | .int n => some n
  | .str s => pyIntStr s

/-- An insertion-ordered dict from `Int` to `String`, as Python builds
`normalized: Dict[int, str]`. -/
abbrev IntDict := List (Int × String)

/-- Whether the dict already holds key `k` (Python `k in d`). -/
def containsKey (d : IntDict) (k : Int) : Bool :=
  d.any (fun p => p.1 == k)

/-- Python `d[k] = v`: replace in place if the key exists (insertion order is
kept), otherwise append the new entry. -/
def dictInsert (d : IntDict) (k : Int) (v : String) : IntDict :=
  if containsKey d k then
    d.map (fun p => if p.1 == k then (k, v) else p)
  else
    d ++ [(k, v)]

/-- Python `d.get(k, default)` without the default: first entry with key `k`. -/
def dictGet (d : IntDict) (k : Int) : Option String :=
  (d.find? (fun p => p.1 == k)).map (·.2)

/-- One iteration of the `for k, v in id2label.items()` loop of
`get_id2label`: `normalized[int(k)] = str(v)`, with the entry skipped when
`int(k)` raises (`except Exception: continue`). Values are already strings in
the model, so `str(v)` is the identity. -/
def normStep (d : IntDict) (e : PyKey × String) : IntDict :=
  match pyInt e.1 with
  | some n => dictInsert d n e.2
  | none => d

/-- The whole normalization loop starting from accumulator `d`. -/
def normAux (d : IntDict) (l : List (PyKey × String)) : IntDict :=
  l.foldl normStep d

/-- The `normalized` dict built by `get_id2label` from the metadata mapping. -/
def normalize (l : List (PyKey × String)) : IntDict :=
  normAux [] l

/-- The fixed domain mapping for the OCT 2017 dataset,
`{0: "CNV", 1: "DME", 2: "DRUSEN", 3: "NORMAL"}`. -/
def fixedLabels : IntDict :=
  [(0, "CNV"), (1, "DME"), (2, "DRUSEN"), (3, "NORMAL")]

/-- The generic-placeholder test applied to one normalized value:
`str(v).upper().startswith("LABEL_")` (ASCII fragment; the leading-substring
test is expressed as equality of the first six uppercased characters). -/
def looksGenericVal (v : String) : Bool :=
  (v.toList.map Char.toUpper).take 6 == "LABEL_".toList

/-- Function `get_id2label` from `src/app/main.py`.  The argument is
`getattr(model.config, "id2label", None)`: `none` models a missing (or
non-dict) attribute, `some l` a dict with entries `l` in insertion order. -/
def get_id2label (cfg : Option (List (PyKey × String))) : IntDict :=
  match cfg with
  | some l =>
    if 0 < l.length then
      let normalized := normalize l
      if normalized.length = l.length then
        let looks_generic := normalized.all (fun p => looksGenericVal p.2)
        if looks_generic && (normalized.length == 4) then fixedLabels
        else normalized
      else fixedLabels
    else fixedLabels
  | none => fixedLabels

/-- The label used for a prediction at class index `idx`:
`id2label.get(int(idx), str(idx))` — the map entry when present, else the
decimal string of the raw index. -/
def resolveLabel (id2label : IntDict) (idx : Nat) : String :=
  match dictGet id2label (idx : Int) with
  | some lab => lab
  | none => toString idx

/-- The comparison used to order class probabilities: descending by score.
`torch.topk` returns the k largest values in descending order; this embedding
sorts the index-annotated probability list with a stable insertion sort, so
equal scores keep ascending index order (a deterministic tie-break). -/
def scoreDesc (a b : Nat × ℚ) : Prop :=
  b.2 ≤ a.2

instance : DecidableRel scoreDesc :=
  fun a b => inferInstanceAs (Decidable (b.2 ≤ a.2))

instance : IsTotal (Nat × ℚ) scoreDesc :=
  ⟨fun a b => le_total b.2 a.2⟩

instance : IsTrans (Nat × ℚ) scoreDesc :=
  ⟨fun _ _ _ hab hbc => le_trans hbc hab⟩

/-- Function `format_predictions(probs, top_k)` from `src/app/main.py`, with the
process-global `id2label` passed explicitly.  `probs` is the 1-D probability
tensor as a list of scores; the result pairs each resolved label with its
score.  The requested `top_k` is first clamped by
`top_k = max(1, min(top_k, probs.shape[-1]))`. -/
def format_predictions (id2label : IntDict) (probs : List ℚ) (top_k : Int) :
    List (String × ℚ) :=
  let k := max 1 (min top_k (probs.length : Int))
  let top := (List.insertionSort scoreDesc probs.enum).take k.toNat
  top.map (fun p => (resolveLabel id2label p.1, p.2))

/-- The loaded classification model: its train/eval flag, its parameters, and
the config attribute `id2label` of the model (`none` when missing or not a dict). -/
structure Model where
  training : Bool
  params : List ℚ
  config_id2label : Option (List (PyKey × String))

/-- Method `model.eval()`: switches the module to evaluation mode. -/
def Model.eval (m : Model) : Model :=
  { m with training := false }

/-- The paired preprocessor, as an opaque image → tensor map
(`processor(images=image, return_tensors="pt")`). -/
abbrev Processor := List Nat → List ℚ

/-- Function `load_model_and_processor(model_dir)`.  Filesystem presence (`os.path.isdir`)
and the library loader (`from_pretrained`) are parameters.  When the directory
is missing it raises `FileNotFoundError` before anything is loaded; otherwise
it loads the pair and puts the model in eval mode. -/
def load_model_and_processor (isdir : String → Bool)
    (fromPretrained : String → Model × Processor) (model_dir : String) :
    Except String (Model × Processor) :=
  if isdir model_dir then
    let mp := fromPretrained model_dir
    .ok (mp.1.eval, mp.2)
  else
    .error ("Model directory not found: " ++ model_dir)

/-- Constant `DEFAULT_MODEL_DIR = os.getenv(MODEL_DIR_ENV, "my-trained-vit-model")`:
the value of the environment variable when set, else the fixed default. -/
def default_model_dir (env : Option String) : String :=
  env.getD "my-trained-vit-model"

/-- The process-wide state set up by `_startup`: the globals `model`,
`processor` and `id2label`. -/
structure ServiceState where
  model : Model
  processor : Processor
  id2label : IntDict

/-- Handler `_startup()`: load model and processor from the default directory and
derive the label map.  A load failure propagates and the state is never
built. -/
def startup (isdir : String → Bool)
    (fromPretrained : String → Model × Processor) (env : Option String) :
    Except String ServiceState :=
  match load_model_and_processor isdir fromPretrained (default_model_dir env) with
  | .ok mp => .ok ⟨mp.1, mp.2, get_id2label mp.1.config_id2label⟩
  | .error e => .error e

/-- The multipart upload received by `/predict`: its declared content type
(`none` when the header is absent) and its raw bytes. -/
structure UploadFile where
  content_type : Option String
  content : List Nat

/-- Outcome of the `/predict` handler: an `HTTPException(status, detail)` or
the JSON list of predictions. -/
inductive PredictResult where
  | httpError (status : Nat) (detail : String)
  | ok (predictions : List (String × ℚ))
deriving DecidableEq, Repr

/-- The `/predict` handler.  External operations are parameters: `decode` is
`Image.open(...).convert("RGB")` (`none` when the bytes raise), `fwd` is the
model forward pass — its first argument is the gradient-tracking mode, and the
handler always invokes it at `false`, translating `with torch.no_grad():` —
and `smax` is `torch.nn.functional.softmax` composed with `squeeze(0)`.
The handler only reads the process state and returns it alongside the
response. -/
def predict_route (decode : List Nat → Option (List Nat))
    (fwd : Bool → Model → List ℚ → List ℚ) (smax : List ℚ → List ℚ)
    (st : ServiceState) (file : UploadFile) (top_k : Int) :
    PredictResult × ServiceState :=
  match file.content_type with
  | none => (.httpError 400 "File must be an image", st)
  | some ct =>
    if ct.startsWith "image/" then
      match decode file.content with
      | none => (.httpError 400 "Invalid image file", st)
      | some image =>
        let inputs := st.processor image
        let logits := fwd false st.model inputs
        let probs := smax logits
        (.ok (format_predictions st.id2label probs top_k), st)
    else (.httpError 400 "File must be an image", st)

/-! ### Association-list dict lemmas -/

theorem containsKey_iff {d : IntDict} {k : Int} :
    containsKey d k = true ↔ ∃ p ∈ d, p.1 = k := by
  simp [containsKey, List.any_eq_true]

theorem length_dictInsert_le (d : IntDict) (k : Int) (v : String) :
    (dictInsert d k v).length ≤ d.length + 1 := by
  unfold dictInsert
  by_cases h : containsKey d k
  · simp [h]
  · simp [h]

theorem length_dictInsert_of_contains {d : IntDict} {k : Int} (v : String)
    (h : containsKey d k = true) : (dictInsert d k v).length = d.length := by
  simp [dictInsert, h]

theorem containsKey_dictInsert_self (d : IntDict) (k : Int) (v : String) :
    containsKey (dictInsert d k v) k = true := by
  unfold dictInsert
  by_cases h : containsKey d k
  · simp only [h, if_true]
    rcases containsKey_iff.mp h with ⟨p, hp, hpk⟩
    refine containsKey_iff.mpr ⟨(k, v), ?_, rfl⟩
    rw [List.mem_map]
    exact ⟨p, hp, by simp [hpk]⟩
  · simp only [h]
    refine containsKey_iff.mpr ⟨(k, v), ?_, rfl⟩
    simp

theorem containsKey_dictInsert_mono {d : IntDict} {j : Int} (k : Int) (v : String)
    (h : containsKey d j = true) : containsKey (dictInsert d k v) j = true := by
  by_cases hjk : j = k
  · subst hjk; exact containsKey_dictInsert_self d j v
  · unfold dictInsert
    by_cases hc : containsKey d k
    · simp only [hc, if_true]
      rcases containsKey_iff.mp h with ⟨p, hp, hpj⟩
      refine containsKey_iff.mpr ⟨p, ?_, hpj⟩
      rw [List.mem_map]
      refine ⟨p, hp, ?_⟩
      have hne : ¬ (p.1 = k) := by rw [hpj]; exact hjk
      simp [hne]
    · simp only [hc]
      rcases containsKey_iff.mp h with ⟨p, hp, hpj⟩
      exact containsKey_iff.mpr ⟨p, List.mem_append_left _ hp, hpj⟩

theorem contains_of_mem_dict {d : IntDict} {k : Int}
    (h : containsKey d k = true) : ∃ w, (k, w) ∈ d := by
  rcases containsKey_iff.mp h with ⟨⟨a, b⟩, hp, hpk⟩
  subst hpk
  exact ⟨b, hp⟩

/-! ### Normalization-loop lemmas -/

theorem normAux_append (d : IntDict) (a b : List (PyKey × String)) :
    normAux d (a ++ b) = normAux (normAux d a) b :=
  List.foldl_append ..

theorem normStep_of_parse_fail {e : PyKey × String} (d : IntDict)
    (h : pyInt e.1 = none) : normStep d e = d := by
  simp [normStep, h]

theorem normStep_of_parse_ok {e : PyKey × String} {n : Int} (d : IntDict)
    (h : pyInt e.1 = some n) : normStep d e = dictInsert d n e.2 := by
  simp [normStep, h]

theorem length_normStep_le (d : IntDict) (e : PyKey × String) :
    (normStep d e).length ≤ d.length + 1 := by
  unfold normStep
  cases h : pyInt e.1 with
  | none => simp
  | some n => exact length_dictInsert_le d n e.2

theorem length_normAux_le (l : List (PyKey × String)) (d : IntDict) :
    (normAux d l).length ≤ d.length + l.length := by
  induction l generalizing d with
  | nil => simp [normAux]
  | cons e rest ih =>
    have h1 : normAux d (e :: rest) = normAux (normStep d e) rest := rfl
    calc (normAux d (e :: rest)).length
        ≤ (normStep d e).length + rest.length := h1 ▸ ih (normStep d e)
      _ ≤ d.length + 1 + rest.length :=
          Nat.add_le_add_right (length_normStep_le d e) _
      _ = d.length + (e :: rest).length := by simp only [List.length_cons]; omega

theorem containsKey_normStep_mono {d : IntDict} {j : Int} (e : PyKey × String)
    (h : containsKey d j = true) : containsKey (normStep d e) j = true := by
  unfold normStep
  cases hp : pyInt e.1 with
  | none => exact h
  | some n => exact containsKey_dictInsert_mono n e.2 h

theorem containsKey_normAux_mono {j : Int} (l : List (PyKey × String))
    (d : IntDict) (h : containsKey d j = true) :
    containsKey (normAux d l) j = true := by
  induction l generalizing d with
  | nil => exact h
  | cons e rest ih => exact ih (normStep d e) (containsKey_normStep_mono e h)

/-- An entry whose key fails `int()` is skipped, so the normalized dict is
strictly shorter than the metadata mapping. -/
theorem length_normalize_lt_of_parse_fail {l : List (PyKey × String)}
    {k : PyKey} {v : String} (hm : (k, v) ∈ l) (hp : pyInt k = none) :
    (normalize l).length < l.length := by
  rcases List.append_of_mem hm with ⟨s, t, rfl⟩
  have h1 : normalize (s ++ (k, v) :: t) = normAux (normAux [] s) t := by
    unfold normalize
    rw [normAux_append]
    show normAux (normStep (normAux [] s) (k, v)) t = _
    rw [normStep_of_parse_fail _ hp]
  have h2 := length_normAux_le t (normAux [] s)
  have h3 := length_normAux_le s ([] : IntDict)
  rw [h1]
  simp only [List.length_append, List.length_cons, List.length_nil] at *
  omega

/-- Two entries whose keys normalize to the same integer collapse to one dict
slot, so the normalized dict is strictly shorter than the metadata mapping. -/
theorem length_normalize_lt_of_collision {l1 l2 l3 : List (PyKey × String)}
    {k1 k2 : PyKey} {v1 v2 : String} {n : Int}
    (h1 : pyInt k1 = some n) (h2 : pyInt k2 = some n) :
    (normalize (l1 ++ (k1, v1) :: l2 ++ (k2, v2) :: l3)).length
      < (l1 ++ (k1, v1) :: l2 ++ (k2, v2) :: l3).length := by
  have key : normalize (l1 ++ (k1, v1) :: l2 ++ (k2, v2) :: l3)
      = normAux (normStep (normAux (normStep (normAux [] l1) (k1, v1)) l2)
          (k2, v2)) l3 := by
    unfold normalize
    have : l1 ++ (k1, v1) :: l2 ++ (k2, v2) :: l3
        = (l1 ++ (k1, v1) :: l2) ++ ((k2, v2) :: l3) := by simp
    rw [this, normAux_append, normAux_append]
    rfl
  set A1 := normStep (normAux [] l1) (k1, v1) with hA1
  set A2 := normAux A1 l2 with hA2
  have hcont1 : containsKey A1 n = true := by
    rw [hA1, normStep_of_parse_ok _ h1]
    exact containsKey_dictInsert_self _ n v1
  have hcont2 : containsKey A2 n = true := containsKey_normAux_mono l2 _ hcont1
  have hstep : (normStep A2 (k2, v2)).length = A2.length := by
    rw [normStep_of_parse_ok _ h2]
    exact length_dictInsert_of_contains v2 hcont2
  have e0 := length_normAux_le l1 ([] : IntDict)
  have e1 : A1.length ≤ (normAux [] l1).length + 1 := length_normStep_le _ _
  have e2 : A2.length ≤ A1.length + l2.length := length_normAux_le l2 A1
  have e3 := length_normAux_le l3 (normStep A2 (k2, v2))
  rw [key]
  simp only [List.length_append, List.length_cons, List.length_nil] at *
  omega

/-- A successfully parsed key of the metadata mapping ends up as a key of the
normalized dict. -/
theorem containsKey_normalize_of_mem {l : List (PyKey × String)}
    {k : PyKey} {v : String} {n : Int} (hm : (k, v) ∈ l)
    (hp : pyInt k = some n) : containsKey (normalize l) n = true := by
  rcases List.append_of_mem hm with ⟨s, t, rfl⟩
  unfold normalize
  rw [normAux_append]
  show containsKey (normAux (normStep (normAux [] s) (k, v)) t) n = true
  refine containsKey_normAux_mono t _ ?_
  rw [normStep_of_parse_ok _ hp]
  exact containsKey_dictInsert_self _ n v

/-! ### Branch lemmas for `get_id2label` -/

theorem get_id2label_none : get_id2label none = fixedLabels := rfl

theorem get_id2label_nil : get_id2label (some []) = fixedLabels := rfl

theorem get_id2label_of_mismatch {l : List (PyKey × String)}
    (h : (normalize l).length ≠ l.length) :
    get_id2label (some l) = fixedLabels := by
  unfold get_id2label
  by_cases h0 : 0 < l.length
  · simp only [h0, if_true, h, if_false]
  · simp only [h0, if_false]

theorem get_id2label_of_match {l : List (PyKey × String)}
    (h0 : 0 < l.length) (h : (normalize l).length = l.length)
    (hg : ¬ ((normalize l).all (fun p => looksGenericVal p.2)
        && ((normalize l).length == 4)) = true) :
    get_id2label (some l) = normalize l := by
  unfold get_id2label
  rw [h] at hg
  simp only [h0, if_true, h]
  exact if_neg hg

theorem get_id2label_of_generic {l : List (PyKey × String)}
    (h0 : 0 < l.length) (h : (normalize l).length = l.length)
    (hg : ((normalize l).all (fun p => looksGenericVal p.2)
        && ((normalize l).length == 4)) = true) :
    get_id2label (some l) = fixedLabels := by
  unfold get_id2label
  rw [h] at hg
  simp only [h0, if_true, h]
  exact if_pos hg

/-- Returning the normalized mapping: when the mapping is non-empty, fully
parseable with no entry dropped, and the generic-placeholder test fails
(some value is not "LABEL_"-like, or the entry count is not 4),
`get_id2label` returns `normalize l`. -/
theorem get_id2label_of_non_generic {l : List (PyKey × String)}
    (h0 : 0 < l.length) (hfull : (normalize l).length = l.length)
    (hng : (normalize l).all (fun p => looksGenericVal p.2) = false ∨
      l.length ≠ 4) :
    get_id2label (some l) = normalize l := by
  refine get_id2label_of_match h0 hfull ?_
  intro hcontra
  rw [Bool.and_eq_true] at hcontra
  rcases hcontra with ⟨ha, hb⟩
  rcases hng with hng | hng
  · rw [hng] at ha
    exact Bool.false_ne_true ha
  · have h4 : (normalize l).length = 4 := by simpa using hb
    exact hng (by omega)

/-! ### Claim theorems for the Label Resolver -/

/-- Claim C2: for every non-empty metadata mapping in which every key parses
as an integer with no entry dropped, every resulting label case-insensitively
starts with "LABEL_", and there are exactly 4 entries, `get_id2label` returns
the fixed domain mapping `{0: CNV, 1: DME, 2: DRUSEN, 3: NORMAL}`. -/
theorem get_id2label_generic_replaced (l : List (PyKey × String))
    (hfull : (normalize l).length = l.length) (hlen : l.length = 4)
    (hgen : (normalize l).all (fun p => looksGenericVal p.2) = true) :
    get_id2label (some l) = fixedLabels := by
  refine get_id2label_of_generic (by omega) hfull ?_
  rw [hgen, hfull, hlen]
  rfl

/-- Witness for claim C2 at a concrete 4-entry placeholder mapping (one label
lowercase, exercising the case-insensitive test). -/
theorem get_id2label_generic_replaced_witness :
    (normalize [(PyKey.int 0, "LABEL_0"), (PyKey.int 1, "LABEL_1"),
        (PyKey.int 2, "label_2"), (PyKey.int 3, "LABEL_3")]).length
      = [(PyKey.int 0, "LABEL_0"), (PyKey.int 1, "LABEL_1"),
        (PyKey.int 2, "label_2"), (PyKey.int 3, "LABEL_3")].length ∧
    get_id2label (some [(PyKey.int 0, "LABEL_0"), (PyKey.int 1, "LABEL_1"),
        (PyKey.int 2, "label_2"), (PyKey.int 3, "LABEL_3")]) = fixedLabels :=
  ⟨by decide,
    get_id2label_generic_replaced _ (by decide) (by decide) (by decide)⟩

/-- Claim C3: for a missing, empty, or partially-unparseable metadata mapping,
`get_id2label` returns the fixed 4-class fallback (a valid non-empty
mapping); the function is total, so no input fails. -/
theorem get_id2label_degenerate_fallback (cfg : Option (List (PyKey × String)))
    (h : cfg = none ∨ cfg = some [] ∨
      ∃ l k v, cfg = some l ∧ (k, v) ∈ l ∧ pyInt k = none) :
    get_id2label cfg = fixedLabels ∧ (get_id2label cfg).length = 4 := by
  have main : get_id2label cfg = fixedLabels := by
    rcases h with h | h | ⟨l, k, v, rfl, hm, hp⟩
    · rw [h]
      rfl
    · rw [h]
      rfl
    · exact get_id2label_of_mismatch
        (Nat.ne_of_lt (length_normalize_lt_of_parse_fail hm hp))
  exact ⟨main, by rw [main]; rfl⟩

/-- Witness for claim C3 at a mapping whose single key fails `int()`. -/
theorem get_id2label_degenerate_fallback_witness :
    (some [(PyKey.str "x", "v")] = none ∨
      some [(PyKey.str "x", "v")] = some ([] : List (PyKey × String)) ∨
      ∃ l k v, some [(PyKey.str "x", "v")] = some l ∧ (k, v) ∈ l ∧
        pyInt k = none) ∧
    (get_id2label (some [(PyKey.str "x", "v")]) = fixedLabels ∧
      (get_id2label (some [(PyKey.str "x", "v")])).length = 4) :=
  have h : some [(PyKey.str "x", "v")] = none ∨
      some [(PyKey.str "x", "v")] = some ([] : List (PyKey × String)) ∨
      ∃ l k v, some [(PyKey.str "x", "v")] = some l ∧ (k, v) ∈ l ∧
        pyInt k = none :=
    Or.inr (Or.inr ⟨[(PyKey.str "x", "v")], PyKey.str "x", "v", rfl,
      by decide, by decide⟩)
  ⟨h, get_id2label_degenerate_fallback _ h⟩

/-- Claim C4: for every non-empty, fully-parseable metadata mapping with no
entry dropped on which the generic-placeholder condition fails (some label is
not "LABEL_"-like, or the count is not 4), `get_id2label` returns the mapping
unchanged modulo key/value normalization, i.e. exactly `normalize l`. -/
theorem get_id2label_non_generic_unchanged (l : List (PyKey × String))
    (h0 : 0 < l.length) (hfull : (normalize l).length = l.length)
    (hng : (normalize l).all (fun p => looksGenericVal p.2) = false ∨
      l.length ≠ 4) :
    get_id2label (some l) = normalize l :=
  get_id2label_of_non_generic h0 hfull hng

/-- Witness for claim C4 at a concrete single-entry domain mapping. -/
theorem get_id2label_non_generic_unchanged_witness :
    0 < [(PyKey.int 0, "CNV")].length ∧
    (normalize [(PyKey.int 0, "CNV")]).length
      = [(PyKey.int 0, "CNV")].length ∧
    ((normalize [(PyKey.int 0, "CNV")]).all
        (fun p => looksGenericVal p.2) = false ∨
      [(PyKey.int 0, "CNV")].length ≠ 4) ∧
    get_id2label (some [(PyKey.int 0, "CNV")])
      = normalize [(PyKey.int 0, "CNV")] :=
  ⟨by decide, by decide, Or.inl (by decide),
    get_id2label_non_generic_unchanged _ (by decide) (by decide)
      (Or.inl (by decide))⟩

/-- Claim C5 counterexample: the metadata mapping `{"-1": "FOO"}` has a key
parsing to the negative integer `-1`; `get_id2label` does not fall back to
the fixed mapping but returns `{-1: "FOO"}`, a mapping with a negative key. -/
theorem get_id2label_negative_key_counterexample :
    get_id2label (some [(PyKey.str "-1", "FOO")]) = [((-1 : Int), "FOO")] ∧
    get_id2label (some [(PyKey.str "-1", "FOO")]) ≠ fixedLabels := by
  constructor
  · decide
  · decide

/-- Claim C5 (amended): `int()` accepts negative keys, so normalization
applies whenever every key parses as an integer, negative or not.  A
non-empty, fully-parseable, non-generic mapping holding a key that parses to
a negative integer is returned normalized, with the negative key present in
the result — no fallback occurs. -/
theorem get_id2label_keeps_negative_keys (l : List (PyKey × String))
    (k : PyKey) (v : String) (n : Int)
    (hm : (k, v) ∈ l) (hp : pyInt k = some n) (hneg : n < 0)
    (hfull : (normalize l).length = l.length)
    (hng : (normalize l).all (fun p => looksGenericVal p.2) = false ∨
      l.length ≠ 4) :
    get_id2label (some l) = normalize l ∧
    ∃ w, (n, w) ∈ get_id2label (some l) := by
  have h0 : 0 < l.length := List.length_pos.mpr (List.ne_nil_of_mem hm)
  have main := get_id2label_of_non_generic h0 hfull hng
  refine ⟨main, ?_⟩
  rw [main]
  exact contains_of_mem_dict (containsKey_normalize_of_mem hm hp)

/-- Witness for the amended claim C5 at the mapping `{"-1": "FOO"}`. -/
theorem get_id2label_keeps_negative_keys_witness :
    (PyKey.str "-1", "FOO") ∈ [(PyKey.str "-1", "FOO")] ∧
    pyInt (PyKey.str "-1") = some (-1) ∧ (-1 : Int) < 0 ∧
    (normalize [(PyKey.str "-1", "FOO")]).length
      = [(PyKey.str "-1", "FOO")].length ∧
    ((normalize [(PyKey.str "-1", "FOO")]).all
        (fun p => looksGenericVal p.2) = false ∨
      [(PyKey.str "-1", "FOO")].length ≠ 4) ∧
    (get_id2label (some [(PyKey.str "-1", "FOO")])
        = normalize [(PyKey.str "-1", "FOO")] ∧
      ∃ w, ((-1 : Int), w) ∈ get_id2label (some [(PyKey.str "-1", "FOO")])) :=
  ⟨by decide, by decide, by decide, by decide, Or.inl (by decide),
    get_id2label_keeps_negative_keys _ (PyKey.str "-1") "FOO" (-1)
      (by decide) (by decide) (by decide) (by decide) (Or.inl (by decide))⟩

/-- Claim C10: when two entries of the metadata mapping normalize to the same
integer key, the normalized dict has fewer entries than the input, so
`get_id2label` discards the metadata and returns the fixed 4-class fallback —
a key collision is treated the same as a parse failure. -/
theorem get_id2label_collision_fallback (l1 l2 l3 : List (PyKey × String))
    (k1 k2 : PyKey) (v1 v2 : String) (n : Int)
    (h1 : pyInt k1 = some n) (h2 : pyInt k2 = some n) :
    get_id2label (some (l1 ++ (k1, v1) :: l2 ++ (k2, v2) :: l3))
      = fixedLabels :=
  get_id2label_of_mismatch
    (Nat.ne_of_lt (length_normalize_lt_of_collision h1 h2))

/-- Witness for claim C10 at the mapping `{1: "A", "1": "B"}`. -/
theorem get_id2label_collision_fallback_witness :
    pyInt (PyKey.int 1) = some 1 ∧ pyInt (PyKey.str "1") = some 1 ∧
    get_id2label (some [(PyKey.int 1, "A"), (PyKey.str "1", "B")])
      = fixedLabels :=
  ⟨rfl, by decide,
    get_id2label_collision_fallback [] [] [] (PyKey.int 1) (PyKey.str "1")
      "A" "B" 1 rfl (by decide)⟩

/-! ### Claim theorems for the Result Formatter -/

/-- Claim C1: for every probability vector with at least one class and every
requested integer `top_k`, `format_predictions` returns a sequence sorted in
descending order of score whose length equals `clamp(top_k, 1, class_count)`
(`top_k ≤ 0` clamps to 1, `top_k` above the class count clamps to the class
count); the function is total, so no `top_k` raises. -/
theorem format_predictions_topk (id2label : IntDict) (probs : List ℚ)
    (top_k : Int) (h : 0 < probs.length) :
    ((format_predictions id2label probs top_k).length : Int)
      = min (max top_k 1) (probs.length : Int) ∧
    List.Pairwise (fun a b : String × ℚ => b.2 ≤ a.2)
      (format_predictions id2label probs top_k) := by
  constructor
  · unfold format_predictions
    simp only [List.length_map, List.length_take, List.length_insertionSort,
      List.enum_length]
    omega
  · unfold format_predictions
    have hs : List.Pairwise scoreDesc
        ((List.insertionSort scoreDesc probs.enum).take
          (max 1 (min top_k (probs.length : Int))).toNat) :=
      List.Pairwise.sublist (List.take_sublist _ _)
        (List.sorted_insertionSort scoreDesc probs.enum)
    exact List.pairwise_map.mpr (hs.imp (fun hab => hab))

/-- Witness for claim C1: a 3-class vector with `top_k = 0` clamps to one
prediction. -/
theorem format_predictions_topk_witness :
    0 < [(1 : ℚ), 3, 2].length ∧
    (((format_predictions [(0, "CNV"), (1, "DME")] [(1 : ℚ), 3, 2] 0).length
        : Int) = min (max 0 1) (([(1 : ℚ), 3, 2].length : Nat) : Int) ∧
      List.Pairwise (fun a b : String × ℚ => b.2 ≤ a.2)
        (format_predictions [(0, "CNV"), (1, "DME")] [(1 : ℚ), 3, 2] 0)) :=
  ⟨by decide, format_predictions_topk [(0, "CNV"), (1, "DME")]
    [(1 : ℚ), 3, 2] 0 (by decide)⟩

/-- Claim C6: every prediction produced by `format_predictions` carries the
`id2label` entry for its class index when that index is in the map, and the
decimal string of the raw index otherwise; label resolution is total, so no
index raises. -/
theorem format_predictions_labels (id2label : IntDict) (probs : List ℚ)
    (top_k : Int) (pr : String × ℚ)
    (hmem : pr ∈ format_predictions id2label probs top_k) :
    ∃ i : Nat, i < probs.length ∧ probs[i]? = some pr.2 ∧
      pr.1 = resolveLabel id2label i ∧
      (∀ w, dictGet id2label (i : Int) = some w →
        resolveLabel id2label i = w) ∧
      (dictGet id2label (i : Int) = none →
        resolveLabel id2label i = toString i) := by
  unfold format_predictions at hmem
  rw [List.mem_map] at hmem
  rcases hmem with ⟨p, hp, rfl⟩
  have hp' : p ∈ probs.enum :=
    (List.mem_insertionSort scoreDesc).mp (List.mem_of_mem_take hp)
  rcases p with ⟨i, x⟩
  have hgi : probs[i]? = some x := List.mk_mem_enum_iff_getElem?.mp hp'
  have hlt : i < probs.length := by
    rcases List.getElem?_eq_some.mp hgi with ⟨hl, _⟩
    exact hl
  refine ⟨i, hlt, hgi, rfl, ?_, ?_⟩
  · intro w hw
    simp [resolveLabel, hw]
  · intro hn
    simp [resolveLabel, hn]

/-- Witness for claim C6 at an empty label map: the label of the sole prediction is
the decimal string of its raw index. -/
theorem format_predictions_labels_witness :
    ("0", (1 : ℚ)) ∈ format_predictions [] [(1 : ℚ)] 1 ∧
    ∃ i : Nat, i < [(1 : ℚ)].length ∧
      [(1 : ℚ)][i]? = some ("0", (1 : ℚ)).2 ∧
      ("0", (1 : ℚ)).1 = resolveLabel [] i ∧
      (∀ w, dictGet [] (i : Int) = some w → resolveLabel [] i = w) ∧
      (dictGet [] (i : Int) = none → resolveLabel [] i = toString i) :=
  ⟨by decide, format_predictions_labels [] [(1 : ℚ)] 1 ("0", (1 : ℚ))
    (by decide)⟩

/-! ### Claim theorems for the HTTP routes and startup -/

/-- Claim C7: the `/predict` route fails with HTTP 400 "File must be an
image" exactly when the content type of the upload is missing or does not start
with "image/", fails with HTTP 400 "Invalid image file" exactly when the
content type is an image type but the bytes do not decode, and proceeds to
inference (returns predictions) exactly otherwise. -/
theorem predict_route_gate (decode : List Nat → Option (List Nat))
    (fwd : Bool → Model → List ℚ → List ℚ) (smax : List ℚ → List ℚ)
    (st : ServiceState) (file : UploadFile) (top_k : Int) :
    ((predict_route decode fwd smax st file top_k).1
        = PredictResult.httpError 400 "File must be an image" ↔
      (file.content_type = none ∨ ∃ s, file.content_type = some s ∧
        s.startsWith "image/" = false)) ∧
    ((predict_route decode fwd smax st file top_k).1
        = PredictResult.httpError 400 "Invalid image file" ↔
      (∃ s, file.content_type = some s ∧ s.startsWith "image/" = true ∧
        decode file.content = none)) ∧
    ((∃ preds, (predict_route decode fwd smax st file top_k).1
        = PredictResult.ok preds) ↔
      (∃ s img, file.content_type = some s ∧ s.startsWith "image/" = true ∧
        decode file.content = some img)) := by
  rcases file with ⟨ct, content⟩
  rcases ct with _ | s
  · simp [predict_route]
  · cases hsw : s.startsWith "image/" with
    | false => simp [predict_route, hsw]
    | true =>
      cases hdec : decode content with
      | none => simp [predict_route, hsw, hdec]
      | some img => simp [predict_route, hsw, hdec]

/-- Claim C8: the artifact directory is the MODEL_DIR environment variable
with fixed default "my-trained-vit-model"; when that directory is missing,
startup fails with the `FileNotFoundError` message naming the directory,
before any model or processor is loaded (the outcome is independent of the
library loader), and the failure is fatal — no service state is produced. -/
theorem startup_missing_dir (env : Option String) (isdir : String → Bool)
    (fromPretrained fromPretrained' : String → Model × Processor)
    (h : isdir (default_model_dir env) = false) :
    startup isdir fromPretrained env
        = Except.error ("Model directory not found: " ++ default_model_dir env) ∧
    startup isdir fromPretrained env = startup isdir fromPretrained' env ∧
    default_model_dir none = "my-trained-vit-model" := by
  refine ⟨?_, ?_, rfl⟩
  · unfold startup load_model_and_processor
    rw [h]
    simp
  · unfold startup load_model_and_processor
    rw [h]
    simp

/-- Witness for claim C8: a filesystem with no directories at all. -/
theorem startup_missing_dir_witness :
    (fun _ : String => false) (default_model_dir none) = false ∧
    (startup (fun _ => false)
        (fun _ => (⟨true, [], none⟩, fun _ => [])) none
      = Except.error
        ("Model directory not found: " ++ default_model_dir none) ∧
    startup (fun _ => false)
        (fun _ => (⟨true, [], none⟩, fun _ => [])) none
      = startup (fun _ => false)
        (fun _ => (⟨false, [1], none⟩, fun _ => [])) none ∧
    default_model_dir none = "my-trained-vit-model") :=
  ⟨rfl, startup_missing_dir none (fun _ => false)
    (fun _ => (⟨true, [], none⟩, fun _ => []))
    (fun _ => (⟨false, [1], none⟩, fun _ => [])) rfl⟩

/-- Claim C9: handling a `/predict` request never mutates process-wide state:
the state (model and `id2label` included) returned by the route is the input
state, whether the request succeeds or fails; the outcome of the route depends on
the forward function only at gradient mode `false` (the `torch.no_grad()`
translation), and the model placed in the state at startup is in evaluation
mode (`model.eval()`). -/
theorem predict_route_pure (decode : List Nat → Option (List Nat))
    (fwd fwd' : Bool → Model → List ℚ → List ℚ) (smax : List ℚ → List ℚ)
    (st : ServiceState) (file : UploadFile) (top_k : Int)
    (isdir : String → Bool) (fromPretrained : String → Model × Processor)
    (env : Option String) (s : ServiceState)
    (hgrad : ∀ m t, fwd false m t = fwd' false m t)
    (hs : startup isdir fromPretrained env = Except.ok s) :
    (predict_route decode fwd smax st file top_k).2 = st ∧
    predict_route decode fwd smax st file top_k
      = predict_route decode fwd' smax st file top_k ∧
    s.model.training = false := by
  refine ⟨?_, ?_, ?_⟩
  · rcases file with ⟨ct, content⟩
    rcases ct with _ | sct
    · rfl
    · simp only [predict_route]
      split
      · split
        · rfl
        · rfl
      · rfl
  · rcases file with ⟨ct, content⟩
    rcases ct with _ | sct
    · rfl
    · simp only [predict_route]
      split
      · split
        · rfl
        · rw [hgrad]
      · rfl
  · unfold startup load_model_and_processor at hs
    cases hd : isdir (default_model_dir env) with
    | false =>
      rw [hd] at hs
      simp at hs
    | true =>
      rw [hd] at hs
      simp at hs
      rw [← hs]
      rfl

/-- Witness for claim C9 at a concrete state, upload and loader. -/
theorem predict_route_pure_witness :
    (∀ (m : Model) (t : List ℚ),
        (fun (_ : Bool) (_ : Model) (_ : List ℚ) => ([] : List ℚ)) false m t
          = (fun (_ : Bool) (_ : Model) (_ : List ℚ) =>
              ([] : List ℚ)) false m t) ∧
    (startup (fun _ => true) (fun _ => (⟨true, [], none⟩, fun _ => [])) none
      = Except.ok ⟨⟨false, [], none⟩, fun _ => [], fixedLabels⟩) ∧
    ((predict_route (fun _ => none) (fun _ _ _ => ([] : List ℚ)) id
        ⟨⟨true, [], none⟩, fun _ => [], []⟩ ⟨some "image/png", [7]⟩ 3).2
      = ⟨⟨true, [], none⟩, fun _ => [], []⟩ ∧
    predict_route (fun _ => none) (fun _ _ _ => ([] : List ℚ)) id
        ⟨⟨true, [], none⟩, fun _ => [], []⟩ ⟨some "image/png", [7]⟩ 3
      = predict_route (fun _ => none) (fun _ _ _ => ([] : List ℚ)) id
        ⟨⟨true, [], none⟩, fun _ => [], []⟩ ⟨some "image/png", [7]⟩ 3 ∧
    (⟨⟨false, [], none⟩, fun _ => [], fixedLabels⟩
        : ServiceState).model.training = false) :=
  ⟨fun _ _ => rfl, rfl,
    predict_route_pure (fun _ => none) (fun _ _ _ => ([] : List ℚ))
      (fun _ _ _ => ([] : List ℚ)) id ⟨⟨true, [], none⟩, fun _ => [], []⟩
      ⟨some "image/png", [7]⟩ 3 (fun _ => true)
      (fun _ => (⟨true, [], none⟩, fun _ => [])) none
      ⟨⟨false, [], none⟩, fun _ => [], fixedLabels⟩
      (fun _ _ => rfl) rfl⟩

end Retina
